import Mathlib

/-!
# Verification of the GEMCAT core pipeline

Shallow embedding of the GEMCAT repository's core numerical pipeline
(`src/gemcat/utils.py`, `src/gemcat/adjacency_transformation.py`,
`src/gemcat/model.py`, `src/gemcat/expression.py`, `src/gemcat/ranking.py`,
`src/prankme/verification.py`) over exact rational arithmetic.

Conventions of the embedding:
* numpy `float64` matrices become `List (List ℚ)` (list of rows) — every
  float64 value is a rational, and the claims under study are about exact
  small decimal constants, so ℚ is the faithful carrier;
* numpy broadcasting of a row vector onto a matrix is embedded including its
  failure case (`ValueError`), as `Except String`;
* Python exceptions become `Except String`; a function that mutates `self`
  becomes a function returning the updated structure.
-/

namespace Gemcat

/-- Threshold used by `split_matrix_pos_neg` in `utils.py` (`epsilon = 0.001`). -/
def eps3 : ℚ := 1 / 1000

/-- Epsilon used by the adjacency transformations (`epsilon = 10 ** (-20)`). -/
def eps20 : ℚ := 1 / 10 ^ 20

/-- A dense matrix as a list of rows. -/
abbrev Mat := List (List ℚ)

/-- `utils.split_matrix_pos_neg`: positive part keeps entries with
`x > epsilon` (else 0), negative part keeps entries with `x < epsilon`
(else 0), `epsilon = 0.001`.  Embeds `matrix * (matrix > epsilon)` and
`matrix * (matrix < epsilon)`. -/
def split_matrix_pos_neg (m : Mat) : Mat × Mat :=
  (m.map (fun row => row.map fun x => if x > eps3 then x else 0),
   m.map (fun row => row.map fun x => if x < eps3 then x else 0))

/-- `utils.make_unidirectional`: appends, for every column flagged reversible,
a sign-flipped copy of that column.  (The runtime `TypeError` check on
non-bool entries is vacuous here since `rev : List Bool`; numpy's boolean
column mask assumes `rev` has one entry per column.) -/
def make_unidirectional (m : Mat) (rev : List Bool) : Mat :=
  m.map fun row =>
    row ++ (List.zipWith (fun x (b : Bool) => if b then some (-x) else none) row rev).reduceOption

/-- numpy broadcasting of `matrix * expression_row_vector`: elementwise when
the lengths agree, scalar broadcast when the vector has length 1, and a
`ValueError` otherwise. -/
def numpyRowBroadcastMul (m : Mat) (e : List ℚ) : Except String Mat :=
  if e.length = 1 then
    .ok (m.map fun row => row.map fun x => x * e.headD 0)
  else if m.all fun row => row.length = e.length then
    .ok (m.map fun row => List.zipWith (· * ·) row e)
  else
    .error "operands could not be broadcast together"

/-- `A @ np.transpose(B)`: entry (i, j) is the dot product of row i of `A`
with row j of `B`. -/
def matMulTranspose (a b : Mat) : Mat :=
  a.map fun ra => b.map fun rb => (List.zipWith (· * ·) ra rb).sum

/-- The final common step of every transformation: divide each row by
`(row_sum + epsilon)` with `epsilon = 10 ** (-20)`
(`np.divide(adjacencies, col_sum)` against `make_column_vector(sum + eps)`). -/
def normalizeRows (m : Mat) : Mat :=
  m.map fun row => row.map fun x => x / (row.sum + eps20)

/-- `ATFullStoich.transform` up to (excluding) the row normalization:
scale by expression, expand reversible columns, split at the 1e-3 threshold,
then `np.abs(negative_part) @ np.transpose(positive_part)`. -/
def ATFullStoich_raw (s : Mat) (rev : List Bool) (e : List ℚ) : Except String Mat := do
  let scaled ← numpyRowBroadcastMul s e
  let uni := make_unidirectional scaled rev
  let (pos, neg) := split_matrix_pos_neg uni
  .ok (matMulTranspose (neg.map fun row => row.map abs) pos)

/-- `ATFullStoich.transform` (adjacency_transformation.py, lines 46-73). -/
def ATFullStoich_transform (s : Mat) (rev : List Bool) (e : List ℚ) : Except String Mat :=
  (ATFullStoich_raw s rev e).map normalizeRows

/-- `ATHalfStoich.transform` up to (excluding) the row normalization:
the consuming side is turned into `negative_part / (negative_part + eps)`
before the product. -/
def ATHalfStoich_raw (s : Mat) (rev : List Bool) (e : List ℚ) : Except String Mat := do
  let scaled ← numpyRowBroadcastMul s e
  let uni := make_unidirectional scaled rev
  let (pos, neg) := split_matrix_pos_neg uni
  let outgoing := neg.map fun row => row.map fun x => x / (x + eps20)
  .ok (matMulTranspose outgoing pos)

/-- `ATHalfStoich.transform` (adjacency_transformation.py, lines 76-110). -/
def ATHalfStoich_transform (s : Mat) (rev : List Bool) (e : List ℚ) : Except String Mat :=
  (ATHalfStoich_raw s rev e).map normalizeRows

/-- The first step peculiar to `ATPureAdjacency.transform`:
`stoich_matrix / np.abs(stoich_matrix + epsilon)` with `epsilon = 10 ** (-20)`. -/
def signNormalize (s : Mat) : Mat :=
  s.map fun row => row.map fun x => x / |x + eps20|

/-- The deterministic stage of `ATPureAdjacency.transform` before the 1e-3
threshold split: sign-normalize the coefficients, scale by the expression
row vector, expand reversible columns. -/
def pureScaledStage (s : Mat) (rev : List Bool) (e : List ℚ) : Except String Mat :=
  (numpyRowBroadcastMul (signNormalize s) e).map fun scaled =>
    make_unidirectional scaled rev

/-- `ATPureAdjacency.transform` up to (excluding) the row normalization:
sign-normalize the coefficients, scale by the expression row vector, expand
reversible columns, split, then binarized-consumer times producer. -/
def ATPureAdjacency_raw (s : Mat) (rev : List Bool) (e : List ℚ) : Except String Mat := do
  let uni ← pureScaledStage s rev e
  let (pos, neg) := split_matrix_pos_neg uni
  let outgoing := neg.map fun row => row.map fun x => x / (x + eps20)
  .ok (matMulTranspose outgoing pos)

/-- `ATPureAdjacency.transform` (adjacency_transformation.py, lines 113-147). -/
def ATPureAdjacency_transform (s : Mat) (rev : List Bool) (e : List ℚ) : Except String Mat :=
  (ATPureAdjacency_raw s rev e).map normalizeRows

/-! ## Model (model.py)

`Model` methods that mutate `self` are embedded as functions returning the
updated structure; methods that can raise return `Except String`.  The
ranking strategy invoked by `calculate` wraps an external solver
(networkx's pagerank), so it is abstracted as a function parameter. -/

/-- The loaded `ExpressionIntegration` object, reduced to the one capability
`Model` uses after loading: `get_mapped_values()` (a 1-D float vector). -/
structure ExpressionObj where
  mappedValues : List ℚ

/-- Which `AdjacencyTransformation` strategy the model holds. -/
inductive Policy where
  | pureAdjacency
  | halfStoich
  | fullStoich

/-- Dispatch to the strategy's `transform`. -/
def Policy.transform : Policy → Mat → List Bool → List ℚ → Except String Mat
  | .pureAdjacency => ATPureAdjacency_transform
  | .halfStoich => ATHalfStoich_transform
  | .fullStoich => ATFullStoich_transform

/-- The `Model` state (model.py).  `adjacenciesAreCurrent` is the dirty flag
`_adjacencies_are_current`; `adjacencies` is the cached matrix (None until
first computed). -/
structure Model where
  stoichiometricMatrix : Mat
  adjacencies : Option Mat
  metaboliteNames : List String
  expressionVector : List ℚ
  reversibilities : List Bool
  expression : Option ExpressionObj
  adjacencyPolicy : Policy
  adjacenciesAreCurrent : Bool
  seeds : Option (List ℚ)
  scores : Option (List ℚ)

/-- Number of metabolites: `self.dimensions[0]` (row count of S). -/
def Model.numMetabolites (m : Model) : Nat := m.stoichiometricMatrix.length

/-- Number of reactions: `self.dimensions[1]` (column count of S). -/
def Model.numReactions (m : Model) : Nat := (m.stoichiometricMatrix.headD []).length

/-- `Model.__init__` with `metabolite_seeds=None` (the default): no expression
loaded, so the expression vector is the all-ones `(1, r)` vector; the
adjacency cache starts stale and empty.  Constructing with a seed list goes
through `load_metabolite_seeds` below, exactly as in the source. -/
def Model.init (s : Mat) (names : List String) (rev : List Bool) (policy : Policy) : Model :=
  { stoichiometricMatrix := s
    adjacencies := none
    metaboliteNames := names
    expressionVector := List.replicate (s.headD []).length 1
    reversibilities := rev
    expression := none
    adjacencyPolicy := policy
    adjacenciesAreCurrent := false
    seeds := none
    scores := none }

/-- `Model.load_metabolite_seeds` (model.py, lines 85-99): `None` clears the
seeds; a list is rejected with a `ValueError` unless its length equals the
metabolite count (the `TypeError` branch for non-list input is enforced by
typing here).  The raise happens before any assignment, so on error the
model is untouched. -/
def Model.load_metabolite_seeds (m : Model) (seeds : Option (List ℚ)) : Except String Model :=
  match seeds with
  | none => .ok { m with seeds := none }
  | some s =>
    if s.length ≠ m.numMetabolites then
      .error "Length of seeds must be equal to number of metabolites"
    else
      .ok { m with seeds := some s }

/-- `Model._update_expression_vector`: mapped values of the loaded expression
object if any, else the all-ones `(1, r)` vector. -/
def Model.updateExpressionVector (m : Model) : Model :=
  match m.expression with
  | some e => { m with expressionVector := e.mappedValues }
  | none => { m with expressionVector := List.replicate m.numReactions 1 }

/-- `Model.load_expression` (model.py, lines 112-125): marks the adjacency
cache stale, stores the expression object, refreshes the expression vector.
(The `isinstance` `TypeError` branch is enforced by typing; overwriting a
previous expression only logs.) -/
def Model.load_expression (m : Model) (e : ExpressionObj) : Model :=
  Model.updateExpressionVector
    { m with adjacenciesAreCurrent := false, expression := some e }

/-- `Model._check_and_reload_adjacencies` (model.py, lines 179-185), inlining
`_update_adjacencies`: recompute the adjacency matrix only when the dirty
flag says it is stale. -/
def Model.checkAndReloadAdjacencies (m : Model) : Except String Model :=
  if m.adjacenciesAreCurrent then .ok m
  else do
    let a ← m.adjacencyPolicy.transform m.stoichiometricMatrix m.reversibilities
      m.expressionVector
    .ok { m with adjacencies := some a, adjacenciesAreCurrent := true }

/-- `Model.calculate` (model.py, lines 127-148): refresh the adjacency cache
if stale, then hand the adjacency matrix, seeds and names to the ranking
strategy (`rk` abstracts `self.ranking.propagate`, whose numeric core is the
external networkx pagerank), store and return the scores.  Note that
`_check_and_reshape_expression_vector` is NOT invoked anywhere on this path
(nor anywhere else outside the test suite). -/
def Model.calculate (m : Model)
    (rk : Mat → Option (List ℚ) → List String → List ℚ) :
    Except String (List ℚ × Model) := do
  let m1 ← m.checkAndReloadAdjacencies
  let scores := rk (m1.adjacencies.getD []) m1.seeds m1.metaboliteNames
  .ok (scores, { m1 with scores := some scores })

/-! ## Expression integration (expression.py, `GeometricAndAverageMeans`)

The GPR rewriting works on strings, so the embedding carries out the exact
character-level operations of the source: Python `str.replace` (all
non-overlapping occurrences, left to right), the regex
`\d*\.\d*(?: and \d*\.\d*)+` used by `rewrite_single_gpr` (greedy matching,
non-overlapping hits collected left to right, exactly `re.findall`'s
behaviour on these patterns), `str.split("and")`, `str.strip`, and
`", ".join`.  Python's `f"{float}"` formatting is embedded for the values
that can arise here: floats with a finite decimal expansion. -/

/-- Digit characters of a natural number (most significant first); fueled
structural recursion. -/
def natDigitsAux : Nat → Nat → List Char
  | 0, _ => []
  | fuel + 1, n =>
    if n < 10 then [Char.ofNat (48 + n)]
    else natDigitsAux fuel (n / 10) ++ [Char.ofNat (48 + n % 10)]

/-- Decimal string of a natural number. -/
def natToStr (n : Nat) : String := ⟨natDigitsAux (n + 1) n⟩

/-- Left-pad a digit string with zeros to width `k`. -/
def padZeros (s : String) (k : Nat) : String :=
  ⟨List.replicate (k - s.length) '0' ++ s.data⟩

/-- Python `f"{v}"` for a float value `v`, on the values arising in GPR
substitution: written with the shortest finite decimal expansion and at
least one fractional digit (`3.0`, `0.5`, `-2.25`, ...). -/
def formatFloat (q : ℚ) : String :=
  let sign := if q < 0 then "-" else ""
  let n := q.num.natAbs
  let d := q.den
  match (List.range 31).find? (fun k => d ∣ 10 ^ k) with
  | some 0 => sign ++ natToStr n ++ ".0"
  | some (k + 1) =>
    let scaled := n * 10 ^ (k + 1) / d
    sign ++ natToStr (scaled / 10 ^ (k + 1)) ++ "." ++
      padZeros (natToStr (scaled % 10 ^ (k + 1))) (k + 1)
  | none => sign ++ natToStr n ++ "/" ++ natToStr d

/-- Python `str.replace`: replace every non-overlapping occurrence of `pat`,
scanning left to right (fueled; `pat = []` never occurs at call sites). -/
def replaceAllAux : Nat → List Char → List Char → List Char → List Char
  | 0, s, _, _ => s
  | _ + 1, [], _, _ => []
  | fuel + 1, c :: rest, pat, rep =>
    if pat ≠ [] ∧ pat.isPrefixOf (c :: rest) then
      rep ++ replaceAllAux fuel ((c :: rest).drop pat.length) pat rep
    else
      c :: replaceAllAux fuel rest pat rep

/-- Python `s.replace(pat, rep)` on strings. -/
def replaceAll (s pat rep : String) : String :=
  ⟨replaceAllAux (s.data.length + 1) s.data pat.data rep.data⟩

/-- `self.data.get(gene_str, self.gene_fill)`. -/
def lookupD (data : List (String × ℚ)) (k : String) (dflt : ℚ) : ℚ :=
  ((data.find? fun p => p.1 == k).map fun p => p.2).getD dflt

/-- The literal separator ` and ` of the AND-run regex. -/
def andSep : List Char := [' ', 'a', 'n', 'd', ' ']

/-- Greedy match of the float pattern `\d*\.\d*` at the head of the input:
digits, a mandatory dot, digits.  Returns the matched text and the rest. -/
def matchFloatTok (cs : List Char) : Option (List Char × List Char) :=
  let d1 := cs.takeWhile Char.isDigit
  match cs.dropWhile Char.isDigit with
  | '.' :: r2 =>
    some (d1 ++ '.' :: r2.takeWhile Char.isDigit, r2.dropWhile Char.isDigit)
  | _ => none

/-- Greedy match of `(?: and \d*\.\d*)+` (one or more ` and `-float groups);
returns the matched text and the rest, or `none` if no group matches. -/
def andChain : Nat → List Char → Option (List Char × List Char)
  | 0, _ => none
  | fuel + 1, cs =>
    if andSep.isPrefixOf cs then
      match matchFloatTok (cs.drop 5) with
      | some (f, rest) =>
        match andChain fuel rest with
        | some (more, rest2) => some (andSep ++ f ++ more, rest2)
        | none => some (andSep ++ f, rest)
      | none => none
    else none

/-- Match of the full AND-run regex `\d*\.\d*(?: and \d*\.\d*)+` at the head
of the input. -/
def matchAndRun (cs : List Char) : Option (List Char × List Char) :=
  match matchFloatTok cs with
  | some (f, r) =>
    match andChain (r.length + 1) r with
    | some (chain, rest) => some (f ++ chain, rest)
    | none => none
  | none => none

/-- `re.findall` of the AND-run regex: scan left to right, collect
non-overlapping matches, resume after each match. -/
def findAndRunsAux : Nat → List Char → List (List Char)
  | 0, _ => []
  | _ + 1, [] => []
  | fuel + 1, c :: t =>
    match matchAndRun (c :: t) with
    | some (run, rest) => run :: findAndRunsAux fuel rest
    | none => findAndRunsAux fuel t

/-- `re_and.findall(gpr)` as a string operation. -/
def findAndRuns (s : String) : List String :=
  (findAndRunsAux (s.data.length + 1) s.data).map fun l => ⟨l⟩

/-- Python `s.split(sep)` on character lists (first argument is fuel):
cut at every non-overlapping occurrence of `sep`, scanning left to right. -/
def splitOnAuxC : Nat → List Char → List Char → List Char → List (List Char)
  | 0, s, _, acc => [acc.reverse ++ s]
  | _ + 1, [], _, acc => [acc.reverse]
  | fuel + 1, c :: rest, sep, acc =>
    if sep ≠ [] ∧ sep.isPrefixOf (c :: rest) then
      acc.reverse :: splitOnAuxC fuel ((c :: rest).drop sep.length) sep []
    else
      splitOnAuxC fuel rest sep (c :: acc)

/-- Python `s.split(sep)` on strings. -/
def splitOnStr (s sep : String) : List String :=
  (splitOnAuxC (s.data.length + 1) s.data sep.data []).map fun l => ⟨l⟩

/-- Python `s.strip()`: remove leading and trailing whitespace. -/
def stripStr (s : String) : String :=
  ⟨((s.data.dropWhile Char.isWhitespace).reverse.dropWhile Char.isWhitespace).reverse⟩

/-- Python `sep.join(parts)`. -/
def joinSep (sep : String) : List String → String
  | [] => ""
  | [x] => x
  | x :: y :: t => x ++ sep ++ joinSep sep (y :: t)

/-- `GeometricAndAverageMeans.rewrite_single_gpr` (expression.py, lines
170-204) on one rule: substitute each associated gene's textual occurrence
by its formatted value (`gene_fill` when absent from the data), replace
`or` by `+`, then rewrite every parenthesized AND-run of numeric literals
into a `geomean(...)` call.  An empty rule returns `""` (the non-string
branch is ruled out by typing). -/
def rewrite_single_gpr (gpr : String) (genes : List String)
    (data : List (String × ℚ)) (geneFill : ℚ) : String :=
  if gpr = "" then ""
  else
    let substituted := genes.foldl
      (fun g gene => replaceAll g gene (formatFloat (lookupD data gene geneFill))) gpr
    let g2 := replaceAll substituted "or" "+"
    let hits := findAndRuns g2
    hits.foldl
      (fun g hit =>
        let gids := (splitOnStr hit "and").map stripStr
        let newCall := "geomean(" ++ joinSep ", " gids ++ ")"
        replaceAll g ("(" ++ hit ++ ")") ("(" ++ newCall ++ ")"))
      g2

/-- Abstract syntax of the arithmetic sublanguage that `parse_expr` sees in
rewritten GPRs: decimal literals (digits `n` with `k` fractional digits,
denoting `n / 10^k`), leftover gene symbols, sums, and `geomean` calls. -/
inductive GprAst where
  | num (n : Nat) (k : Nat)
  | sym (name : String)
  | add (a b : GprAst)
  | geomean (args : List GprAst)

/-- Numeric value of a digit list (most significant first). -/
def digitsToNat (ds : List Char) : Nat :=
  ds.foldl (fun n c => n * 10 + (c.toNat - 48)) 0

/-- Whether a character can start/continue an identifier (sympy symbol). -/
def isIdentChar (c : Char) : Bool := c.isAlphanum || c = '_'

/-- Skip spaces. -/
def skipWs (cs : List Char) : List Char := cs.dropWhile (· = ' ')

/-- Parse a numeric literal `\d+(\.\d*)?` or `\.\d+`; returns digits and
fraction length. -/
def parseNumTok (cs : List Char) : Option (GprAst × List Char) :=
  let d1 := cs.takeWhile Char.isDigit
  let r1 := cs.dropWhile Char.isDigit
  match r1 with
  | '.' :: r2 =>
    let d2 := r2.takeWhile Char.isDigit
    if d1.isEmpty ∧ d2.isEmpty then none
    else some (.num (digitsToNat (d1 ++ d2)) d2.length, r2.dropWhile Char.isDigit)
  | _ =>
    if d1.isEmpty then none
    else some (.num (digitsToNat d1) 0, r1)

mutual

/-- Parse a `+`-separated sum (the external `parse_expr` on the rewritten
sublanguage); fueled recursive descent. -/
def parseSum : Nat → List Char → Option (GprAst × List Char)
  | 0, _ => none
  | fuel + 1, cs =>
    match parseAtom fuel (skipWs cs) with
    | some (a, r) =>
      match skipWs r with
      | '+' :: r2 =>
        match parseSum fuel r2 with
        | some (b, r3) => some (.add a b, r3)
        | none => none
      | r1 => some (a, r1)
    | none => none

/-- Parse one atom: a numeric literal, a parenthesized sum, a `geomean(...)`
call, or a bare symbol. -/
def parseAtom : Nat → List Char → Option (GprAst × List Char)
  | 0, _ => none
  | fuel + 1, cs =>
    match parseNumTok cs with
    | some res => some res
    | none =>
      match cs with
      | '(' :: r =>
        match parseSum fuel r with
        | some (a, r2) =>
          match skipWs r2 with
          | ')' :: r3 => some (a, r3)
          | _ => none
        | none => none
      | c :: _ =>
        if c.isAlpha || c = '_' then
          let idc := cs.takeWhile isIdentChar
          let rest := cs.dropWhile isIdentChar
          let name : String := ⟨idc⟩
          if name = "geomean" then
            match rest with
            | '(' :: r2 =>
              match parseArgs fuel r2 with
              | some (args, r3) => some (.geomean args, r3)
              | none => none
            | _ => some (.sym name, rest)
          else some (.sym name, rest)
        else none
      | [] => none

/-- Parse a `,`-separated argument list up to the closing parenthesis. -/
def parseArgs : Nat → List Char → Option (List GprAst × List Char)
  | 0, _ => none
  | fuel + 1, cs =>
    match parseSum fuel cs with
    | some (a, r) =>
      match skipWs r with
      | ',' :: r2 =>
        match parseArgs fuel r2 with
        | some (args, r3) => some (a :: args, r3)
        | none => none
      | ')' :: r2 => some ([a], r2)
      | _ => none
    | none => none

end

/-- The external `sympy.parse_expr` on the rewritten GPR sublanguage:
parse the whole string as a sum, requiring all input consumed;
`none` models a raised parse error (`SyntaxError`). -/
def parseGpr (s : String) : Option GprAst :=
  match parseSum (s.data.length + 1) s.data with
  | some (a, rest) => if skipWs rest = [] then some a else none
  | none => none

mutual

/-- Whether the parsed expression still contains a free symbol, in which
case Python's `float(result)` raises `TypeError`. -/
def GprAst.hasSymbol : GprAst → Bool
  | .num _ _ => false
  | .sym _ => true
  | .add a b => a.hasSymbol || b.hasSymbol
  | .geomean args => hasSymbolList args

/-- `GprAst.hasSymbol` over an argument list. -/
def hasSymbolList : List GprAst → Bool
  | [] => false
  | a :: t => a.hasSymbol || hasSymbolList t

end

/-- `GeometricAndAverageMeans.eval_single_gpr` (expression.py, lines
209-227): an empty string evaluates to NaN (`.ok none`); the string is then
handed to `parse_expr`, whose parse errors are raised OUTSIDE the
`try/except` and therefore escape (`.error`); a parsed result that
`float()` cannot convert (free symbols remain) is the caught `TypeError`
and degrades to NaN (`.ok none`); otherwise the numeric result is returned. -/
def eval_single_gpr (gpr : String) : Except String (Option GprAst) :=
  if gpr.length = 0 then .ok none
  else
    match parseGpr gpr with
    | none => .error "SyntaxError raised by parse_expr"
    | some ast => if ast.hasSymbol then .ok none else .ok (some ast)

/-- `GeometricAndAverageMeans.map`: evaluate every rewritten rule; a raised
exception aborts the whole pass (Python `Series.map` propagates it). -/
def GeometricAndAverageMeans_map (quantGprs : List String) :
    Except String (List (Option GprAst)) :=
  quantGprs.mapM eval_single_gpr

/-- The default NaN fill of `ExpressionIntegration.fillna` (expression.py,
lines 102-109): `lambda series: series.fillna(1.0)` applied to one mapped
value. -/
def fillnaDefault (v : Option GprAst) : GprAst := v.getD (.num 1 0)

/-- Evaluation semantics of the parsed arithmetic (the numeric work done by
sympy and `utils.geometric_mean`): decimal literals denote `n / 10^k`,
`+` denotes real addition, and `geomean` denotes
`(product of arguments) ** (1 / number of arguments)` exactly as
`utils.geometric_mean` (utils.py, lines 357-381) computes it.  Symbols have
no value (on them `float()` raises, handled in `eval_single_gpr`). -/
inductive SemEval : GprAst → ℝ → Prop where
  | num (n k : Nat) : SemEval (.num n k) ((n : ℝ) / 10 ^ k)
  | add {a b : GprAst} {x y : ℝ} :
      SemEval a x → SemEval b y → SemEval (.add a b) (x + y)
  | geomean {args : List GprAst} {xs : List ℝ} :
      List.Forall₂ SemEval args xs → args ≠ [] →
      SemEval (.geomean args) (xs.prod ^ (((args.length : ℝ))⁻¹ : ℝ))

/-! ## Verification (prankme/verification.py)

The gemcat package's own `verification` module is not present in the source
tree; the `prankme/verification.py` twin cited by the specification is, and
is embedded here.  An input series is reduced to what the checks inspect:
its index (keys) and its numpy dtype. -/

/-- The numpy dtype of a pandas series, as far as the checks look at it. -/
inductive NpDtype where
  | float64
  | int64
  | obj
deriving DecidableEq

/-- A pandas series as seen by the verification functions. -/
structure PSeries where
  index : List String
  dtype : NpDtype
deriving DecidableEq

/-- `verification.raise_for_duplicated_index` (lines 13-24): `ValueError`
when the index has any duplicate. -/
def raise_for_duplicated_index (s : PSeries) : Except String Unit :=
  if s.index.Nodup then .ok () else .error "Index currently has duplicates"

/-- `verification.raise_for_non_int_float_64_dtype` (lines 44-57).  The
source condition is `if not series.dtype == "float64" or series.dtype ==
"int64":`, which by Python precedence is `(not (dtype == float64)) or
(dtype == int64)` — embedded verbatim. -/
def raise_for_non_int_float_64_dtype (s : PSeries) : Except String Unit :=
  if (¬ s.dtype = NpDtype.float64) ∨ s.dtype = NpDtype.int64 then
    .error "Series contains no numerical values"
  else .ok ()

/-- `ExpressionIntegration._verify_data` (expression.py, lines 70-78):
duplicate check, dtype check, then index coercion to `str` (the index is
already `List String` here and the coercion only warns). -/
def verify_data (s : PSeries) : Except String PSeries := do
  raise_for_duplicated_index s
  raise_for_non_int_float_64_dtype s
  .ok s

/-! ## Ranking (ranking.py, `PagerankNX.propagate`)

Only the bespoke input-shaping around the external networkx call is
domain logic: the default-dict handling and the write of the
`personalization` key into the caller-supplied `pr_args` dict.  The dict is
threaded as explicit state — Python mutates the caller's object in place,
so the returned dict IS the caller's dict after the call.  The graph
construction, node relabeling and the pagerank solve are external
(networkx) and abstracted as the `pagerank` parameter. -/

/-- A value stored in the `pr_args` dict: either the personalization mapping
or any other pass-through solver argument. -/
inductive PrVal where
  | personalization (p : List (String × ℚ))
  | passthrough (tag : String) (v : ℚ)
deriving DecidableEq

/-- The `pr_args` dict, insertion-ordered like a Python dict. -/
abbrev PrArgs := List (String × PrVal)

/-- Python `d[k] = v`: replace in place if the key exists, else append. -/
def dictSet (d : PrArgs) (k : String) (v : PrVal) : PrArgs :=
  if d.any (fun p => p.1 == k) then
    d.map fun p => if p.1 == k then (k, v) else p
  else d ++ [(k, v)]

/-- Python `d.get(k)`. -/
def dictLookup (d : PrArgs) (k : String) : Option PrVal :=
  (d.find? fun p => p.1 == k).map fun p => p.2

/-- `PagerankNX.propagate` (ranking.py, lines 47-80), with the external
calls (`nx.DiGraph`, `relabel_nodes`, `nx.pagerank`) abstracted into the
`pagerank` parameter.  Returns the score vector together with the final
state of the caller's `pr_args` dict (`none` models the `pr_args=None`
default, in which case a fresh local dict is used). -/
def PagerankNX_propagate (pagerank : Mat → PrArgs → List ℚ)
    (adjacency : Mat) (seeds : Option (List ℚ)) (names : List String)
    (prArgs0 : Option PrArgs) : List ℚ × PrArgs :=
  let prArgs := prArgs0.getD []
  let prArgs1 :=
    match seeds with
    | some s =>
      if s.length > 0 then
        dictSet prArgs "personalization" (.personalization (names.zip s))
      else prArgs
    | none => prArgs
  (pagerank adjacency prArgs1, prArgs1)

/-! ## Auxiliary definitions for the concrete scenarios under study -/

/-- Uniform scaling of an expression vector by a constant. -/
def scaleVec (c : ℚ) (e : List ℚ) : List ℚ := e.map fun x => c * x

/-- Uniform scaling of a matrix by a constant. -/
def matScale (c : ℚ) (m : Mat) : Mat := m.map fun row => row.map fun x => c * x

/-- The `ATPureAdjacency` + ranking pipeline of `workflow_avg_single`:
the adjacency matrix is handed to the (external, deterministic) ranking
primitive `rk`. -/
def pureAdjacencyPipeline (rk : Mat → List ℚ) (s : Mat) (rev : List Bool)
    (e : List ℚ) : Except String (List ℚ) :=
  (ATPureAdjacency_transform s rev e).map rk

/-- A two-metabolite, two-reaction model with a loaded expression object
whose mapped-value vector has length 1 (legal per the code: nothing on the
`calculate` path checks it, and numpy broadcasts a length-1 vector). -/
def c4Model : Model :=
  (Model.init [[-1, 0], [1, -1]] ["A", "B"] [false, false] .pureAdjacency).load_expression
    ⟨[2]⟩

/-- The same base model loaded with a length-3 mapped-value vector, which can
be broadcast onto neither of the 2 columns of S. -/
def c4BadModel : Model :=
  (Model.init [[-1, 0], [1, -1]] ["A", "B"] [false, false] .pureAdjacency).load_expression
    ⟨[1, 2, 3]⟩

/-- A stand-in for the external ranking primitive used in `calculate`. -/
def c4Rank : Mat → Option (List ℚ) → List String → List ℚ := fun _ _ _ => [0, 0]

/-- A two-metabolite model in the Fresh state: dirty flag cleared, an
adjacency matrix cached. -/
def mFresh : Model :=
  { stoichiometricMatrix := [[-1], [1]]
    adjacencies := some [[0, 10 ^ 60 / (10 ^ 60 + 1)], [0, 0]]
    metaboliteNames := ["A", "B"]
    expressionVector := [1]
    reversibilities := [false]
    expression := none
    adjacencyPolicy := .pureAdjacency
    adjacenciesAreCurrent := true
    seeds := none
    scores := some [1 / 2, 1 / 2] }

/-- A freshly constructed two-metabolite model. -/
def mInit : Model := Model.init [[-1], [1]] ["A", "B"] [false] .pureAdjacency

/-! ## Helper lemmas -/

/-- Dividing every entry of a list divides its sum. -/
theorem list_sum_map_div (l : List ℚ) (d : ℚ) :
    (l.map fun x => x / d).sum = l.sum / d := by
  induction l with
  | nil => simp
  | cons a t ih => simp [ih, add_div]

/-- The arithmetic core of the row-normalization post-condition: a raw row
sum that is 0 or at least 1e-15 normalizes to `s / (s + 1e-20)`, which is 0
or within 1e-5 of 1. -/
theorem normalized_sum_zero_or_one {s : ℚ}
    (h : s = 0 ∨ (1 : ℚ) / 10 ^ 15 ≤ s) :
    |s / (s + eps20)| ≤ 1 / 10 ^ 5 ∨ |s / (s + eps20) - 1| ≤ 1 / 10 ^ 5 := by
  rcases h with h | h
  · left
    simp [h, eps20]
  · right
    have hs : (0 : ℚ) < s := lt_of_lt_of_le (by norm_num) h
    have he : (0 : ℚ) < eps20 := by norm_num [eps20]
    have hd : (0 : ℚ) < s + eps20 := by linarith
    have hrw : s / (s + eps20) - 1 = -(eps20 / (s + eps20)) := by
      field_simp
    rw [hrw, abs_neg, abs_of_nonneg (by positivity)]
    have h1 : eps20 / (s + eps20) ≤ eps20 / s :=
      div_le_div_of_nonneg_left (le_of_lt he) hs (by linarith)
    have h2 : eps20 / s ≤ 1 / 10 ^ 5 := by
      rw [div_le_div_iff₀ hs (by norm_num)]
      calc eps20 * 10 ^ 5 = 1 / 10 ^ 15 := by norm_num [eps20]
        _ ≤ s := h
        _ = 1 * s := (one_mul s).symm
    linarith

/-- Row sums of a row-normalized matrix: each is 0 or within 1e-5 of 1,
provided the raw row sums avoid the tiny-positive (or negative) regime. -/
theorem normalizeRows_row_sums (raw : Mat)
    (h : ∀ row ∈ raw, row.sum = 0 ∨ (1 : ℚ) / 10 ^ 15 ≤ row.sum) :
    ∀ row ∈ normalizeRows raw,
      |row.sum| ≤ 1 / 10 ^ 5 ∨ |row.sum - 1| ≤ 1 / 10 ^ 5 := by
  intro row hrow
  rw [normalizeRows, List.mem_map] at hrow
  obtain ⟨row0, hmem, rfl⟩ := hrow
  rw [list_sum_map_div]
  exact normalized_sum_zero_or_one (h row0 hmem)

/-! ## Claims -/

/-- C1 (counterexample): the row-sum post-condition fails as a universal
statement.  On the stoichiometric matrix `[[-1e-18], [1]]` with one
irreversible reaction and neutral expression `[1.0]`, `ATFullStoich`
returns a matrix whose first row sums to `100/101 ≈ 0.9901`, which is
within 1e-5 of neither 0.0 nor 1.0: the tiny entry `-1e-18` survives the
`< 1e-3` negative mask, giving a raw row sum of 1e-18 that the
`/(row_sum + 1e-20)` normalization maps to `1/(1 + 1e-2)`. -/
theorem c1_counterexample :
    ATFullStoich_transform [[-(1 / 10 ^ 18 : ℚ)], [1]] [false] [1] =
      .ok [[0, 100 / 101], [0, 0]]
    ∧ ¬ (|([(0 : ℚ), 100 / 101].sum)| ≤ 1 / 10 ^ 5
          ∨ |([(0 : ℚ), 100 / 101].sum) - 1| ≤ 1 / 10 ^ 5) := by
  constructor
  · norm_num [ATFullStoich_transform, ATFullStoich_raw, numpyRowBroadcastMul,
      make_unidirectional, split_matrix_pos_neg, matMulTranspose, normalizeRows,
      eps3, eps20, Except.map, Except.bind, bind, List.zipWith, List.reduceOption,
      List.filterMap, List.sum, abs_of_pos, abs_of_nonpos]
  · norm_num
    constructor <;> rw [abs_of_pos (by norm_num)] <;> norm_num

/-- C1 (amended): for each of the three policies, every row of the returned
matrix sums to 0.0 or to 1.0 within tolerance 1e-5, PROVIDED every row of
the pre-normalization adjacency matrix sums to exactly 0 or to at least
1e-15.  (Tiny positive raw row sums — reachable only through near-zero
matrix entries — normalize to `s/(s + 1e-20)`, which can be far from both
0 and 1, as the counterexample shows.) -/
theorem c1_amended :
    (∀ (s : Mat) (rev : List Bool) (e : List ℚ) (raw adj : Mat),
      ATFullStoich_raw s rev e = .ok raw →
      (∀ row ∈ raw, row.sum = 0 ∨ (1 : ℚ) / 10 ^ 15 ≤ row.sum) →
      ATFullStoich_transform s rev e = .ok adj →
      ∀ row ∈ adj, |row.sum| ≤ 1 / 10 ^ 5 ∨ |row.sum - 1| ≤ 1 / 10 ^ 5)
    ∧ (∀ (s : Mat) (rev : List Bool) (e : List ℚ) (raw adj : Mat),
      ATHalfStoich_raw s rev e = .ok raw →
      (∀ row ∈ raw, row.sum = 0 ∨ (1 : ℚ) / 10 ^ 15 ≤ row.sum) →
      ATHalfStoich_transform s rev e = .ok adj →
      ∀ row ∈ adj, |row.sum| ≤ 1 / 10 ^ 5 ∨ |row.sum - 1| ≤ 1 / 10 ^ 5)
    ∧ (∀ (s : Mat) (rev : List Bool) (e : List ℚ) (raw adj : Mat),
      ATPureAdjacency_raw s rev e = .ok raw →
      (∀ row ∈ raw, row.sum = 0 ∨ (1 : ℚ) / 10 ^ 15 ≤ row.sum) →
      ATPureAdjacency_transform s rev e = .ok adj →
      ∀ row ∈ adj, |row.sum| ≤ 1 / 10 ^ 5 ∨ |row.sum - 1| ≤ 1 / 10 ^ 5) := by
  refine ⟨?_, ?_, ?_⟩
  · intro s rev e raw adj hraw hsums htr
    rw [ATFullStoich_transform, hraw] at htr
    simp only [Except.map, Except.ok.injEq] at htr
    subst htr
    exact normalizeRows_row_sums raw hsums
  · intro s rev e raw adj hraw hsums htr
    rw [ATHalfStoich_transform, hraw] at htr
    simp only [Except.map, Except.ok.injEq] at htr
    subst htr
    exact normalizeRows_row_sums raw hsums
  · intro s rev e raw adj hraw hsums htr
    rw [ATPureAdjacency_transform, hraw] at htr
    simp only [Except.map, Except.ok.injEq] at htr
    subst htr
    exact normalizeRows_row_sums raw hsums

/-- C1 (witness): the amended theorem applied to the concrete two-metabolite
chain `[[-1], [1]]`, one irreversible reaction, neutral expression:
`ATFullStoich` yields the row `[0, 1e20/(1e20+1)]`, whose sum is within
1e-5 of 1. -/
theorem c1_amended_witness :
    |([(0 : ℚ), 10 ^ 20 / (10 ^ 20 + 1)].sum)| ≤ 1 / 10 ^ 5
    ∨ |([(0 : ℚ), 10 ^ 20 / (10 ^ 20 + 1)].sum) - 1| ≤ 1 / 10 ^ 5 := by
  have h := c1_amended.1 [[-1], [1]] [false] [1] [[0, 1], [0, 0]]
    [[0, 10 ^ 20 / (10 ^ 20 + 1)], [0, 0]]
    (by
      norm_num [ATFullStoich_raw, numpyRowBroadcastMul, make_unidirectional,
        split_matrix_pos_neg, matMulTranspose, eps3, eps20, Except.bind, bind,
        List.zipWith, List.reduceOption, List.filterMap, List.sum,
        abs_of_pos, abs_of_nonpos])
    (by
      intro row hr
      simp at hr
      rcases hr with rfl | rfl
      · right; norm_num
      · left; norm_num)
    (by
      norm_num [ATFullStoich_transform, ATFullStoich_raw, numpyRowBroadcastMul,
        make_unidirectional, split_matrix_pos_neg, matMulTranspose, normalizeRows,
        eps3, eps20, Except.map, Except.bind, bind, List.zipWith, List.reduceOption,
        List.filterMap, List.sum, abs_of_pos, abs_of_nonpos])
  exact h [0, 10 ^ 20 / (10 ^ 20 + 1)] (by simp)

/-- C3 (counterexample): the entry `0.0005`, strictly inside
`(-0.001, 0.001)`, does NOT fall into the "positive" part of
`split_matrix_pos_neg`: the positive mask `matrix > epsilon` zeroes it,
while the negative mask `matrix < epsilon` (strict comparison against `+ε`,
not `-ε`) keeps it, so near-zero entries land wholesale in the NEGATIVE
part. -/
theorem c3_counterexample :
    split_matrix_pos_neg [[1 / 2000]] = ([[0]], [[1 / 2000]])
    ∧ -eps3 < (1 / 2000 : ℚ) ∧ (1 / 2000 : ℚ) < eps3 ∧ (1 / 2000 : ℚ) ≠ 0 := by
  refine ⟨?_, by norm_num [eps3], by norm_num [eps3], by norm_num⟩
  norm_num [split_matrix_pos_neg, eps3]

/-- C3 (amended): every entry strictly inside `(-ε, +ε)` (ε = 1e-3) falls
into the NEGATIVE part of the split returned by `split_matrix_pos_neg`
(kept there verbatim, zeroed in the positive part), because the negative
mask uses the strict comparison `< ε` against `+ε`. -/
theorem c3_amended (m : Mat) (i j : Nat) (x : ℚ)
    (h1 : -eps3 < x) (h2 : x < eps3)
    (hx : (m[i]?.bind fun row => row[j]?) = some x) :
    ((split_matrix_pos_neg m).1[i]?.bind fun row => row[j]?) = some 0
    ∧ ((split_matrix_pos_neg m).2[i]?.bind fun row => row[j]?) = some x := by
  cases hrow : m[i]? with
  | none => rw [hrow] at hx; simp at hx
  | some row =>
    rw [hrow] at hx
    simp only [Option.some_bind] at hx
    have hnotgt : ¬ (x > eps3) := not_lt.mpr (le_of_lt h2)
    constructor
    · simp [split_matrix_pos_neg, List.getElem?_map, hrow, hx, hnotgt]
    · simp [split_matrix_pos_neg, List.getElem?_map, hrow, hx, h2]

/-- C3 (witness): the amended theorem applied to the one-entry matrix
`[[0.0005]]`. -/
theorem c3_amended_witness :
    ((split_matrix_pos_neg [[1 / 2000]]).1[0]?.bind fun row => row[0]?) = some 0
    ∧ ((split_matrix_pos_neg [[1 / 2000]]).2[0]?.bind fun row => row[0]?) =
      some (1 / 2000) :=
  c3_amended [[1 / 2000]] 0 0 (1 / 2000) (by norm_num [eps3]) (by norm_num [eps3]) rfl

/-- C5: on a Fresh model (`_adjacencies_are_current = True`),
`load_expression` flips the dirty flag to Stale, so the next
`calculate()`'s `_check_and_reload_adjacencies` recomputes the adjacency
matrix from the current inputs; `load_metabolite_seeds` with a
correct-length list only stores the seeds, leaving the freshness flag and
the cached adjacency matrix untouched. -/
theorem c5_fresh_to_stale (m : Model) (e : ExpressionObj)
    (h : m.adjacenciesAreCurrent = true) :
    (m.load_expression e).adjacenciesAreCurrent = false
    ∧ (m.load_expression e).checkAndReloadAdjacencies =
        ((m.load_expression e).adjacencyPolicy.transform
            (m.load_expression e).stoichiometricMatrix
            (m.load_expression e).reversibilities
            (m.load_expression e).expressionVector).map
          (fun a =>
            { m.load_expression e with
                adjacencies := some a, adjacenciesAreCurrent := true })
    ∧ ∀ s : List ℚ, s.length = m.numMetabolites →
        m.load_metabolite_seeds (some s) = .ok { m with seeds := some s }
        ∧ ({ m with seeds := some s } : Model).adjacenciesAreCurrent = true
        ∧ ({ m with seeds := some s } : Model).adjacencies = m.adjacencies := by
  have hstale : (m.load_expression e).adjacenciesAreCurrent = false := by
    simp [Model.load_expression, Model.updateExpressionVector]
  refine ⟨hstale, ?_, ?_⟩
  · rw [Model.checkAndReloadAdjacencies, if_neg (by simp [hstale])]
    cases htr : (m.load_expression e).adjacencyPolicy.transform
        (m.load_expression e).stoichiometricMatrix
        (m.load_expression e).reversibilities
        (m.load_expression e).expressionVector with
    | error msg => simp [htr, Except.map, Except.bind, bind]
    | ok a => simp [htr, Except.map, Except.bind, bind]
  · intro s hs
    refine ⟨?_, by simp [h], by simp⟩
    simp [Model.load_metabolite_seeds, hs]

/-- C5 (witness): the theorem applied to the concrete Fresh model `mFresh`. -/
theorem c5_fresh_to_stale_witness :
    (mFresh.load_expression ⟨[2]⟩).adjacenciesAreCurrent = false
    ∧ mFresh.load_metabolite_seeds (some [5, 7]) = .ok { mFresh with seeds := some [5, 7] } := by
  have h := c5_fresh_to_stale mFresh ⟨[2]⟩ rfl
  exact ⟨h.1, (h.2.2 [5, 7] rfl).1⟩

/-- C6: `load_metabolite_seeds` with a list whose length differs from the
metabolite count raises a `ValueError` (before any assignment, so the
stored seeds are untouched — the returned model in the success case shows
the only field written); a list of exactly m entries is accepted and
stored. -/
theorem c6_seed_length_check (m : Model) (s : List ℚ) :
    (s.length ≠ m.numMetabolites →
      m.load_metabolite_seeds (some s) =
        .error "Length of seeds must be equal to number of metabolites")
    ∧ (s.length = m.numMetabolites →
      m.load_metabolite_seeds (some s) = .ok { m with seeds := some s }) := by
  constructor
  · intro hne
    simp [Model.load_metabolite_seeds, hne]
  · intro heq
    simp [Model.load_metabolite_seeds, heq]

/-- C6 (witness): seeds of length 3 on the two-metabolite model `mInit` are
rejected; seeds of length 2 are stored. -/
theorem c6_seed_length_check_witness :
    mInit.load_metabolite_seeds (some [1, 2, 3]) =
      .error "Length of seeds must be equal to number of metabolites"
    ∧ mInit.load_metabolite_seeds (some [1, 2]) = .ok { mInit with seeds := some [1, 2] } :=
  ⟨(c6_seed_length_check mInit [1, 2, 3]).1 (by decide),
   (c6_seed_length_check mInit [1, 2]).2 (by decide)⟩

/-- C4 (counterexample): a model whose loaded expression vector has length 1
while the model has 2 reactions — the vector can be reshaped to neither
`(1, 2)` nor match it — does NOT make `calculate()` raise: no check runs
(`_check_and_reshape_expression_vector` is never invoked on the `calculate`
path), numpy broadcasts the single value across all columns, and scores are
computed. -/
theorem c4_counterexample :
    c4Model.expressionVector.length = 1
    ∧ c4Model.numReactions = 2
    ∧ (c4Model.calculate c4Rank).isOk = true := by
  refine ⟨by norm_num [c4Model, Model.load_expression, Model.updateExpressionVector,
    Model.init], by norm_num [c4Model, Model.load_expression,
    Model.updateExpressionVector, Model.init, Model.numReactions], ?_⟩
  norm_num [c4Model, c4Rank, Model.calculate, Model.init, Model.load_expression,
    Model.updateExpressionVector, Model.checkAndReloadAdjacencies, Policy.transform,
    ATPureAdjacency_transform, ATPureAdjacency_raw, pureScaledStage, signNormalize,
    numpyRowBroadcastMul, make_unidirectional, split_matrix_pos_neg, matMulTranspose,
    normalizeRows, eps3, eps20, Except.map, Except.bind, bind, List.zipWith,
    List.reduceOption, List.filterMap, List.sum, abs_of_pos, abs_of_nonpos,
    Except.isOk, Except.toBool]

/-- C4 (amended): `calculate()` performs no expression-vector validation at
the input boundary.  A wrong-length vector whose length is neither the
reaction count nor 1 raises a `ValueError` only from inside the adjacency
transformation's numpy broadcast (for every policy, on any non-empty
matrix); a length-1 vector is broadcast silently and scores are computed
(the `c4Model` conjunct). -/
theorem c4_amended :
    (∀ (m : Model) (rk : Mat → Option (List ℚ) → List String → List ℚ) (r : Nat),
      m.stoichiometricMatrix ≠ [] →
      (∀ row ∈ m.stoichiometricMatrix, row.length = r) →
      m.expressionVector.length ≠ 1 →
      m.expressionVector.length ≠ r →
      m.adjacenciesAreCurrent = false →
      m.calculate rk = .error "operands could not be broadcast together")
    ∧ (c4Model.calculate c4Rank).isOk = true := by
  constructor
  · intro m rk r hne hrows hlen1 hlenr hstale
    have hb : ∀ M : Mat, M ≠ [] → (∀ row ∈ M, row.length = r) →
        numpyRowBroadcastMul M m.expressionVector =
          .error "operands could not be broadcast together" := by
      intro M hMne hM
      rw [numpyRowBroadcastMul, if_neg hlen1, if_neg]
      intro hall
      obtain ⟨row0, t, rfl⟩ := List.exists_cons_of_ne_nil hMne
      simp only [List.all_cons, Bool.and_eq_true, decide_eq_true_eq] at hall
      have h0 : row0.length = r := hM row0 (List.mem_cons_self _ _)
      omega
    have htr : m.adjacencyPolicy.transform m.stoichiometricMatrix m.reversibilities
        m.expressionVector = .error "operands could not be broadcast together" := by
      cases hp : m.adjacencyPolicy with
      | pureAdjacency =>
        have h1 := hb (signNormalize m.stoichiometricMatrix)
          (by simpa [signNormalize] using hne)
          (by
            intro row hr
            obtain ⟨row0, hm, rfl⟩ := List.mem_map.mp hr
            simpa using hrows row0 hm)
        simp [Policy.transform, ATPureAdjacency_transform, ATPureAdjacency_raw,
          pureScaledStage, h1, Except.map, Except.bind, bind]
      | halfStoich =>
        have h1 := hb m.stoichiometricMatrix hne hrows
        simp [Policy.transform, ATHalfStoich_transform, ATHalfStoich_raw, h1,
          Except.map, Except.bind, bind]
      | fullStoich =>
        have h1 := hb m.stoichiometricMatrix hne hrows
        simp [Policy.transform, ATFullStoich_transform, ATFullStoich_raw, h1,
          Except.map, Except.bind, bind]
    simp [Model.calculate, Model.checkAndReloadAdjacencies, hstale, htr,
      Except.bind, bind]
  · norm_num [c4Model, c4Rank, Model.calculate, Model.init, Model.load_expression,
      Model.updateExpressionVector, Model.checkAndReloadAdjacencies, Policy.transform,
      ATPureAdjacency_transform, ATPureAdjacency_raw, pureScaledStage, signNormalize,
      numpyRowBroadcastMul, make_unidirectional, split_matrix_pos_neg, matMulTranspose,
      normalizeRows, eps3, eps20, Except.map, Except.bind, bind, List.zipWith,
      List.reduceOption, List.filterMap, List.sum, abs_of_pos, abs_of_nonpos,
      Except.isOk, Except.toBool]

/-- C4 (witness): the amended theorem applied to the concrete model with a
length-3 expression vector on 2 reactions: `calculate` surfaces the numpy
broadcast `ValueError`. -/
theorem c4_amended_witness :
    c4BadModel.calculate c4Rank = .error "operands could not be broadcast together" := by
  apply c4_amended.1 c4BadModel c4Rank 2
  · simp [c4BadModel, Model.load_expression, Model.updateExpressionVector, Model.init]
  · intro row hr
    simp [c4BadModel, Model.load_expression, Model.updateExpressionVector,
      Model.init] at hr
    rcases hr with rfl | rfl <;> rfl
  · simp [c4BadModel, Model.load_expression, Model.updateExpressionVector, Model.init]
  · simp [c4BadModel, Model.load_expression, Model.updateExpressionVector, Model.init]
  · simp [c4BadModel, Model.load_expression, Model.updateExpressionVector, Model.init]

/-- C9: the dtype guard rejects int64 series.  The source line
`if not series.dtype == "float64" or series.dtype == "int64":` parses as
`(not (dtype == float64)) or (dtype == int64)` by Python precedence, so a
numeric int64 series with unique keys raises the `ValueError` — contrary to
the claim and to the function's own docstring ("raised if Series content
isn't NumPy type float64 or int64"); only float64 passes. -/
theorem c9_int64_rejected :
    verify_data { index := ["g1", "g2"], dtype := .int64 } =
      .error "Series contains no numerical values"
    ∧ (["g1", "g2"] : List String).Nodup
    ∧ verify_data { index := ["g1", "g2"], dtype := .float64 } =
      .ok { index := ["g1", "g2"], dtype := .float64 } := by
  refine ⟨?_, by decide, ?_⟩ <;>
    simp [verify_data, raise_for_duplicated_index, raise_for_non_int_float_64_dtype,
      Except.bind, bind]

/-- Writing a key into a Python dict makes it retrievable. -/
theorem dictLookup_dictSet (d : PrArgs) (k : String) (v : PrVal) :
    dictLookup (dictSet d k v) k = some v := by
  induction d with
  | nil => simp [dictSet, dictLookup, List.find?]
  | cons p t ih =>
    rw [dictSet]
    by_cases hp : p.1 = k
    · have hb : (p.1 == k) = true := beq_iff_eq.mpr hp
      rw [if_pos (by simp [List.any_cons, hb])]
      rw [List.map_cons, dictLookup]
      simp [List.find?, hb]
    · have hb : (p.1 == k) = false := beq_eq_false_iff_ne.mpr hp
      simp only [List.any_cons, hb, Bool.false_or]
      by_cases ht : t.any fun q => q.1 == k
      · rw [if_pos ht, List.map_cons, dictLookup]
        have hfp : (if (p.1 == k) = true then (k, v) else p) = p := by simp [hb]
        rw [hfp]
        simp only [List.find?, hb]
        rw [dictLookup, dictSet, if_pos ht] at ih
        exact ih
      · rw [if_neg ht, List.cons_append, dictLookup]
        simp only [List.find?, hb]
        rw [dictLookup, dictSet, if_neg ht] at ih
        exact ih

/-- C10: whenever `PagerankNX.propagate` is called with a non-empty seed
list and a caller-supplied `pr_args` dict, it writes the
`"personalization"` key — bound to `dict(zip(names, seeds))` — into that
dict.  Python mutates the caller's object in place; the embedding threads
the dict as explicit state, so the second component of the result is the
caller's dict after the call, and it contains the mapping. -/
theorem c10_personalization_written (pagerank : Mat → PrArgs → List ℚ)
    (adjacency : Mat) (seeds : List ℚ) (names : List String) (prArgs : PrArgs)
    (h : seeds ≠ []) :
    dictLookup (PagerankNX_propagate pagerank adjacency (some seeds) names
        (some prArgs)).2 "personalization" =
      some (.personalization (names.zip seeds)) := by
  have hlen : seeds.length > 0 := List.length_pos.mpr h
  simp [PagerankNX_propagate, hlen, dictLookup_dictSet]

/-- C10 (witness): a caller dict already holding a solver argument receives
the personalization entry. -/
theorem c10_personalization_written_witness :
    dictLookup (PagerankNX_propagate (fun _ _ => []) [[0]] (some [1]) ["A"]
        (some [("alpha", .passthrough "alpha" (17 / 20))])).2 "personalization" =
      some (.personalization [("A", 1)]) :=
  c10_personalization_written (fun _ _ => []) [[0]] [1] ["A"]
    [("alpha", .passthrough "alpha" (17 / 20))] (by simp)

/-- C7 (counterexample): a malformed GPR rule does NOT degrade to NaN — the
exception escapes the mapping pass.  The rule `"G1 and ("` rewrites to
`"3.0 and ("` (no AND-run of numeric literals matches, so the text is left
as is), and `parse_expr` on it raises a parse error; since that call sits
OUTSIDE the `try/except TypeError` in `eval_single_gpr`, the exception
aborts the whole `map` pass instead of producing NaN. -/
theorem c7_counterexample :
    rewrite_single_gpr "G1 and (" ["G1"] [("G1", 3)] 0 = "3.0 and ("
    ∧ GeometricAndAverageMeans_map ["3.0 and ("] =
        .error "SyntaxError raised by parse_expr" := by
  exact ⟨by decide, by rfl⟩

/-- C7 (amended): the local-NaN recovery covers exactly the empty rule and
rules that parse but cannot be converted to a number (remaining gene
symbols, the caught `TypeError`): those get NaN and the default `fillna`
maps them to 1.0.  A rewritten rule that fails to parse instead raises an
exception that escapes the mapping pass (see the counterexample). -/
theorem c7_amended :
    eval_single_gpr "" = .ok none
    ∧ (∀ (s : String) (ast : GprAst), parseGpr s = some ast →
        ast.hasSymbol = true → eval_single_gpr s = .ok none)
    ∧ fillnaDefault none = .num 1 0
    ∧ SemEval (fillnaDefault none) 1 := by
  refine ⟨rfl, ?_, rfl, ?_⟩
  · intro s ast hp hs
    rw [eval_single_gpr]
    by_cases h0 : s.length = 0
    · rw [if_pos h0]
    · rw [if_neg h0, hp]
      simp [hs]
  · have h := SemEval.num 1 0
    norm_num at h
    exact h

/-- C7 (witness): the amended theorem applied to the rewritten rule `"G9"`
(a gene missing from the substitution): it parses to a symbol, `float()`
raises the caught `TypeError`, and the score is NaN. -/
theorem c7_amended_witness : eval_single_gpr "G9" = .ok none :=
  c7_amended.2.1 "G9" (.sym "G9") rfl rfl

/-- The cube root of 120 lies between 4.93242 and 4.93243. -/
theorem rpow_third_120_bounds :
    (4.93242 : ℝ) ≤ (120 : ℝ) ^ ((3 : ℝ))⁻¹
    ∧ (120 : ℝ) ^ ((3 : ℝ))⁻¹ ≤ 4.93243 := by
  have hcast : (((3 : ℕ) : ℝ)) = (3 : ℝ) := by norm_num
  have hy0 : (0 : ℝ) ≤ (120 : ℝ) ^ ((3 : ℝ))⁻¹ :=
    Real.rpow_nonneg (by norm_num) _
  have hy3 : ((120 : ℝ) ^ ((3 : ℝ))⁻¹) ^ (3 : ℕ) = 120 := by
    rw [← hcast]
    exact Real.rpow_inv_natCast_pow (by norm_num) (by norm_num)
  constructor
  · refine (pow_le_pow_iff_left₀ (by norm_num) hy0 (by norm_num : (3 : ℕ) ≠ 0)).mp ?_
    rw [hy3]; norm_num
  · refine (pow_le_pow_iff_left₀ hy0 (by norm_num) (by norm_num : (3 : ℕ) ≠ 0)).mp ?_
    rw [hy3]; norm_num

/-- The square root of 56 lies between 7.48331 and 7.48332. -/
theorem rpow_half_56_bounds :
    (7.48331 : ℝ) ≤ (56 : ℝ) ^ ((2 : ℝ))⁻¹
    ∧ (56 : ℝ) ^ ((2 : ℝ))⁻¹ ≤ 7.48332 := by
  have hcast : (((2 : ℕ) : ℝ)) = (2 : ℝ) := by norm_num
  have hy0 : (0 : ℝ) ≤ (56 : ℝ) ^ ((2 : ℝ))⁻¹ :=
    Real.rpow_nonneg (by norm_num) _
  have hy2 : ((56 : ℝ) ^ ((2 : ℝ))⁻¹) ^ (2 : ℕ) = 56 := by
    rw [← hcast]
    exact Real.rpow_inv_natCast_pow (by norm_num) (by norm_num)
  constructor
  · refine (pow_le_pow_iff_left₀ (by norm_num) hy0 (by norm_num : (2 : ℕ) ≠ 0)).mp ?_
    rw [hy2]; norm_num
  · refine (pow_le_pow_iff_left₀ hy0 (by norm_num) (by norm_num : (2 : ℕ) ≠ 0)).mp ?_
    rw [hy2]; norm_num

/-- C2: on the GPR `"G3 or (G4 and G5 and G6) or (G7 and G8)"` with gene
values G3..G8 = 3..8, the rewrite produces
`"3.0 + (geomean(4.0, 5.0, 6.0)) + (geomean(7.0, 8.0))"`, that string
evaluates (without error and without NaN) to the parsed sum, and its value
— `3 + geomean(4,5,6) + geomean(7,8) = 3 + 120^(1/3) + 56^(1/2)` — lies
within relative tolerance 1e-5 of 15.4157. -/
theorem c2_geometric_and_average_means :
    rewrite_single_gpr "G3 or (G4 and G5 and G6) or (G7 and G8)"
        ["G3", "G4", "G5", "G6", "G7", "G8"]
        [("G3", 3), ("G4", 4), ("G5", 5), ("G6", 6), ("G7", 7), ("G8", 8)] 0 =
      "3.0 + (geomean(4.0, 5.0, 6.0)) + (geomean(7.0, 8.0))"
    ∧ eval_single_gpr "3.0 + (geomean(4.0, 5.0, 6.0)) + (geomean(7.0, 8.0))" =
        .ok (some (.add (.num 30 1)
          (.add (.geomean [.num 40 1, .num 50 1, .num 60 1])
                (.geomean [.num 70 1, .num 80 1]))))
    ∧ (∃ v : ℝ, SemEval (.add (.num 30 1)
          (.add (.geomean [.num 40 1, .num 50 1, .num 60 1])
                (.geomean [.num 70 1, .num 80 1]))) v)
    ∧ (∀ v : ℝ, SemEval (.add (.num 30 1)
          (.add (.geomean [.num 40 1, .num 50 1, .num 60 1])
                (.geomean [.num 70 1, .num 80 1]))) v →
        |v - 15.4157| ≤ 15.4157 * (1 / 10 ^ 5)) := by
  refine ⟨by decide, by rfl, ?_, ?_⟩
  · exact ⟨_, SemEval.add (SemEval.num 30 1)
      (SemEval.add
        (SemEval.geomean
          (List.Forall₂.cons (SemEval.num 40 1)
            (List.Forall₂.cons (SemEval.num 50 1)
              (List.Forall₂.cons (SemEval.num 60 1) List.Forall₂.nil)))
          (by simp))
        (SemEval.geomean
          (List.Forall₂.cons (SemEval.num 70 1)
            (List.Forall₂.cons (SemEval.num 80 1) List.Forall₂.nil))
          (by simp)))⟩
  · intro v h
    cases h with
    | add h1 h2 =>
      cases h1
      cases h2 with
      | add hg1 hg2 =>
        cases hg1 with
        | geomean hf1 hne1 =>
          cases hg2 with
          | geomean hf2 hne2 =>
            cases hf1 with
            | cons ha1 hf1t =>
              cases ha1
              cases hf1t with
              | cons ha2 hf1t2 =>
                cases ha2
                cases hf1t2 with
                | cons ha3 hf1n =>
                  cases ha3
                  cases hf1n
                  cases hf2 with
                  | cons hb1 hf2t =>
                    cases hb1
                    cases hf2t with
                    | cons hb2 hf2n =>
                      cases hb2
                      cases hf2n
                      have h120 := rpow_third_120_bounds
                      have h56 := rpow_half_56_bounds
                      simp only [List.prod_cons, List.prod_nil, List.length_cons,
                        List.length_nil]
                      push_cast
                      norm_num
                      rw [abs_le]
                      constructor <;>
                        nlinarith [h120.1, h120.2, h56.1, h56.2]

/-- C2 (witness): the evaluation theorem applied to the explicit value
`3 + 120^(1/3) + 56^(1/2)` with its `SemEval` derivation. -/
theorem c2_geometric_and_average_means_witness :
    |(3 : ℝ) + ((120 : ℝ) ^ ((3 : ℝ))⁻¹ + (56 : ℝ) ^ ((2 : ℝ))⁻¹) - 15.4157| ≤
      15.4157 * (1 / 10 ^ 5) := by
  have h := c2_geometric_and_average_means.2.2.2 _
    (SemEval.add (SemEval.num 30 1)
      (SemEval.add
        (SemEval.geomean
          (List.Forall₂.cons (SemEval.num 40 1)
            (List.Forall₂.cons (SemEval.num 50 1)
              (List.Forall₂.cons (SemEval.num 60 1) List.Forall₂.nil)))
          (by simp))
        (SemEval.geomean
          (List.Forall₂.cons (SemEval.num 70 1)
            (List.Forall₂.cons (SemEval.num 80 1) List.Forall₂.nil))
          (by simp))))
  simp only [List.prod_cons, List.prod_nil, List.length_cons, List.length_nil] at h
  push_cast at h
  norm_num at h ⊢
  exact h

/-- Scaling the right operand of the elementwise product scales the result. -/
theorem zipWith_mul_scaleVec (row e : List ℚ) (c : ℚ) :
    List.zipWith (· * ·) row (scaleVec c e) =
      (List.zipWith (· * ·) row e).map fun x => c * x := by
  induction row generalizing e with
  | nil => simp
  | cons a t ih =>
    cases e with
    | nil => simp [scaleVec]
    | cons b eb =>
      simp only [scaleVec, List.map_cons, List.zipWith_cons_cons]
      rw [show List.map (fun x => c * x) eb = scaleVec c eb from rfl, ih]
      simp [mul_left_comm]

/-- The reversible-column mask commutes with scaling the matrix entries. -/
theorem zipWith_mask_scale (row : List ℚ) (rev : List Bool) (c : ℚ) :
    List.zipWith (fun x (b : Bool) => if b then some (-x) else none)
      (row.map fun x => c * x) rev =
    (List.zipWith (fun x (b : Bool) => if b then some (-x) else none) row rev).map
      (Option.map fun x => c * x) := by
  induction row generalizing rev with
  | nil => simp
  | cons a t ih =>
    cases rev with
    | nil => simp
    | cons b rb => cases b <;> simp [ih, mul_neg]

/-- `make_unidirectional` commutes with uniform scaling. -/
theorem make_unidirectional_scale (m : Mat) (rev : List Bool) (c : ℚ) :
    make_unidirectional (matScale c m) rev = matScale c (make_unidirectional m rev) := by
  rw [make_unidirectional, make_unidirectional, matScale, matScale, List.map_map,
    List.map_map]
  congr 1
  funext row
  simp only [Function.comp]
  rw [List.map_append, zipWith_mask_scale, List.reduceOption_map]

/-- The head default of a scaled vector. -/
theorem scaleVec_headD (e : List ℚ) (c : ℚ) :
    (scaleVec c e).headD 0 = c * e.headD 0 := by
  cases e <;> simp [scaleVec]

/-- C8 (counterexample): uniform positive scaling of the expression vector
does NOT leave the `ATPureAdjacency` + ranking pipeline output unchanged
for every input.  With `S = [[-1], [1]]` and base expression `[0.0009]`,
the sign-normalized scaled entries `≈ ±0.0009` lie below the 1e-3 split
threshold, so no producing edge survives and the adjacency is the zero
matrix; doubling the expression moves the entries to `≈ ±0.0018`, across
the threshold, creating an edge of weight `≈ 1`.  Feeding both adjacency
matrices to the same (deterministic, external) ranking primitive — here the
row-flattening one — yields different score vectors. -/
theorem c8_counterexample :
    scaleVec 2 [9 / 10000] = [18 / 10000]
    ∧ pureAdjacencyPipeline (fun a => a.flatten) [[-1], [1]] [false] [9 / 10000] =
        .ok [0, 0, 0, 0]
    ∧ pureAdjacencyPipeline (fun a => a.flatten) [[-1], [1]] [false]
        (scaleVec 2 [9 / 10000]) =
        .ok [0, 4000000000000000000000000000000000000000000000000000000000000000000000000 /
          4000000000000000022222222222222222098987654320987654320987654320987654321, 0, 0]
    ∧ pureAdjacencyPipeline (fun a => a.flatten) [[-1], [1]] [false]
        (scaleVec 2 [9 / 10000]) ≠
      pureAdjacencyPipeline (fun a => a.flatten) [[-1], [1]] [false] [9 / 10000] := by
  have h1 : pureAdjacencyPipeline (fun a => a.flatten) [[-1], [1]] [false] [9 / 10000] =
      .ok [0, 0, 0, 0] := by
    norm_num [pureAdjacencyPipeline, ATPureAdjacency_transform, ATPureAdjacency_raw,
      pureScaledStage, signNormalize, numpyRowBroadcastMul, make_unidirectional,
      split_matrix_pos_neg, matMulTranspose, normalizeRows, eps3, eps20, Except.map,
      Except.bind, bind, List.zipWith, List.reduceOption, List.filterMap, List.sum,
      List.flatten, abs_of_pos, abs_of_nonpos]
  have h2 : pureAdjacencyPipeline (fun a => a.flatten) [[-1], [1]] [false]
      (scaleVec 2 [9 / 10000]) =
      .ok [0, 4000000000000000000000000000000000000000000000000000000000000000000000000 /
        4000000000000000022222222222222222098987654320987654320987654320987654321, 0, 0] := by
    norm_num [pureAdjacencyPipeline, ATPureAdjacency_transform, ATPureAdjacency_raw,
      pureScaledStage, signNormalize, numpyRowBroadcastMul, make_unidirectional,
      split_matrix_pos_neg, matMulTranspose, normalizeRows, scaleVec, eps3, eps20,
      Except.map, Except.bind, bind, List.zipWith, List.reduceOption, List.filterMap,
      List.sum, List.flatten, abs_of_pos, abs_of_nonpos]
  refine ⟨by norm_num [scaleVec], h1, h2, ?_⟩
  rw [h1, h2]
  intro hEq
  simp only [Except.ok.injEq, List.cons.injEq] at hEq
  norm_num at hEq

/-- C8 (amended): scale-invariance of the `ATPureAdjacency` pipeline is
approximate, not exact.  (i) The deterministic stage before the 1e-3
threshold split is exactly homogeneous: scaling the expression vector by
`c` scales the sign-normalized, expression-scaled, unidirectionally
expanded matrix by `c`.  (ii) Whether an entry survives the threshold split
is not scale-invariant (see the counterexample), and the 1e-20 epsilons in
the binarization and normalization break exact equality even away from the
threshold; on the spec's own no-crossing scenario — the chain `[[-1], [1]]`
with all-1.0 vs all-2.0 expression — the two adjacency matrices agree
entrywise to within 1e-15, far below float64 resolution, which is why the
float pipeline's scores come out numerically identical there. -/
theorem c8_amended :
    (∀ (s : Mat) (rev : List Bool) (e : List ℚ) (c : ℚ),
      pureScaledStage s rev (scaleVec c e) = (pureScaledStage s rev e).map (matScale c))
    ∧ ATPureAdjacency_transform [[-1], [1]] [false] [1] =
        .ok [[0, 100000000000000000000000000000000000000000000000000000000000000000000000000000000 /
          100000000000000000001000000000000000000000000000000000000000000000000000000000001],
          [0, 0]]
    ∧ ATPureAdjacency_transform [[-1], [1]] [false] (scaleVec 2 [1]) =
        .ok [[0, 400000000000000000000000000000000000000000000000000000000000000000000000000000000 /
          400000000000000000002000000000000000000010000000000000000000000000000000000000001],
          [0, 0]]
    ∧ |(400000000000000000000000000000000000000000000000000000000000000000000000000000000 : ℚ) /
          400000000000000000002000000000000000000010000000000000000000000000000000000000001 -
        (100000000000000000000000000000000000000000000000000000000000000000000000000000000 : ℚ) /
          100000000000000000001000000000000000000000000000000000000000000000000000000000001| ≤
      1 / 10 ^ 15 := by
  refine ⟨?_, ?_, ?_, ?_⟩
  · intro s rev e c
    rw [pureScaledStage, pureScaledStage, numpyRowBroadcastMul, numpyRowBroadcastMul]
    have hlen : (scaleVec c e).length = e.length := by simp [scaleVec]
    by_cases hone : e.length = 1
    · rw [if_pos (by rw [hlen]; exact hone), if_pos hone]
      simp only [Except.map]
      rw [scaleVec_headD, ← make_unidirectional_scale]
      congr 1
      rw [matScale, List.map_map]
      have hfun : (fun (row : List ℚ) => List.map (fun x => x * (c * e.headD 0)) row) =
          ((fun row => List.map (fun x => c * x) row) ∘
            fun row => List.map (fun x => x * e.headD 0) row) := by
        funext row
        simp only [Function.comp, List.map_map]
        have hx : ((fun x => c * x) ∘ fun x => x * e.headD 0) =
            fun x => x * (c * e.headD 0) := by
          funext x
          simp only [Function.comp]
          ring
        rw [hx]
      rw [hfun]
    · rw [if_neg (by rw [hlen]; exact hone), if_neg hone]
      have hall : ((signNormalize s).all fun row => row.length = (scaleVec c e).length)
          = ((signNormalize s).all fun row => row.length = e.length) := by
        simp only [hlen]
      rw [hall]
      by_cases hq : (signNormalize s).all fun row => row.length = e.length
      · rw [if_pos hq, if_pos hq]
        simp only [Except.map]
        rw [← make_unidirectional_scale]
        congr 1
        rw [matScale, List.map_map]
        have hfun : (fun (row : List ℚ) => List.zipWith (· * ·) row (scaleVec c e)) =
            ((fun row => List.map (fun x => c * x) row) ∘
              fun row => List.zipWith (· * ·) row e) := by
          funext row
          simp only [Function.comp]
          exact zipWith_mul_scaleVec row e c
        rw [hfun]
      · rw [if_neg hq, if_neg hq]
        simp [Except.map]
  · norm_num [ATPureAdjacency_transform, ATPureAdjacency_raw, pureScaledStage,
      signNormalize, numpyRowBroadcastMul, make_unidirectional, split_matrix_pos_neg,
      matMulTranspose, normalizeRows, eps3, eps20, Except.map, Except.bind, bind,
      List.zipWith, List.reduceOption, List.filterMap, List.sum, abs_of_pos,
      abs_of_nonpos]
  · norm_num [ATPureAdjacency_transform, ATPureAdjacency_raw, pureScaledStage,
      signNormalize, numpyRowBroadcastMul, make_unidirectional, split_matrix_pos_neg,
      matMulTranspose, normalizeRows, scaleVec, eps3, eps20, Except.map, Except.bind,
      bind, List.zipWith, List.reduceOption, List.filterMap, List.sum, abs_of_pos,
      abs_of_nonpos]
  · rw [abs_le]
    constructor <;> norm_num

end Gemcat
